import Mathlib

/-!
# Faketerm playback engine: shallow embedding and verification

Shallow embedding of `faketerm.py` (a curses-based terminal presentation
player) into Lean 4. The curses surface is an external collaborator; it is
modelled as a cursor-tracking trace recorder (`Win`). Mutable Python objects
become explicit state records; in-place mutation becomes state passing;
raised exceptions become `Except PyExc`.

Python 2.7 background used by the model:
* `list.pop(0)` on an empty list raises `IndexError`;
* reading a never-assigned instance attribute raises `AttributeError`;
* `StopIteration`, `IndexError` and `AttributeError` are all subclasses of
  `Exception`, so `except Exception` in `play` catches each of them;
* `"s" * n` repeats a string, `str.center(w)` pads with spaces.

The `vi` slide and `CursesFormatter` delegate to the external pygments
library and are not claimed about; they are not modelled.
-/

namespace Faketerm

/-- Exceptions that the embedded slide handlers can raise. All three are
subclasses of `Exception` in Python 2.7, hence caught by the player's
`except Exception` handler. -/
inductive PyExc where
  | stopIteration
  | indexError
  | attributeError
deriving DecidableEq, Repr

/-- One operation recorded on the curses window (the abstract Surface). -/
inductive WinOp where
  | addstr (s : String)
  | addstrA (s : String) (attr : Nat)
  | addch (c : Nat)
  | deleteln
  | move (y x : Nat)
  | clear
  | flash
  | cursSet (b : Bool)
deriving DecidableEq, Repr

/-- The curses window: fixed geometry, a tracked cursor, and a trace of all
drawing operations performed on it, in order. -/
structure Win where
  maxy : Nat
  maxx : Nat
  cury : Nat
  curx : Nat
  trace : List WinOp
deriving DecidableEq, Repr

/-- Cursor advance caused by writing a string: a newline moves to the start
of the next row, any other character advances one column. -/
def cursorAfter (y x : Nat) (s : String) : Nat × Nat :=
  s.data.foldl (fun p ch => if ch = '\n' then (p.1 + 1, 0) else (p.1, p.2 + 1)) (y, x)

def Win.addstr (w : Win) (s : String) : Win :=
  let p := cursorAfter w.cury w.curx s
  { w with cury := p.1, curx := p.2, trace := w.trace ++ [WinOp.addstr s] }

def Win.addstrA (w : Win) (s : String) (attr : Nat) : Win :=
  let p := cursorAfter w.cury w.curx s
  { w with cury := p.1, curx := p.2, trace := w.trace ++ [WinOp.addstrA s attr] }

def Win.addch (w : Win) (c : Nat) : Win :=
  let p := if c = 10 then (w.cury + 1, 0) else (w.cury, w.curx + 1)
  { w with cury := p.1, curx := p.2, trace := w.trace ++ [WinOp.addch c] }

/-- `deleteln` removes the current line on screen; the cursor stays put. -/
def Win.deleteln (w : Win) : Win :=
  { w with trace := w.trace ++ [WinOp.deleteln] }

def Win.move (w : Win) (y x : Nat) : Win :=
  { w with cury := y, curx := x, trace := w.trace ++ [WinOp.move y x] }

def Win.clear (w : Win) : Win :=
  { w with cury := 0, curx := 0, trace := w.trace ++ [WinOp.clear] }

def Win.getyx (w : Win) : Nat × Nat := (w.cury, w.curx)

def Win.getmaxyx (w : Win) : Nat × Nat := (w.maxy, w.maxx)

/-- curses `A_BOLD` attribute (1 << 21 with ncurses' standard layout). -/
def A_BOLD : Nat := 2097152

/-- Python string repetition `s * n` (here `n * s` with `n : Nat`). -/
def strRepeat (s : String) : Nat → String
  | 0 => ""
  | n + 1 => s ++ strRepeat s n

/-- Python 2 `str.center(width)`: pad with spaces; CPython puts the extra
space of an odd margin on the left exactly when `marg & width & 1`. -/
def strCenter (s : String) (width : Nat) : String :=
  if s.length ≥ width then s
  else
    let marg := width - s.length
    let left := marg / 2 + (marg &&& width &&& 1)
    strRepeat " " left ++ s ++ strRepeat " " (marg - left)

/-! ## `Slide` base class: authoring capture (`write` / `softspace`) -/

/-- The file-like authoring state of a slide: its capture `buffer` and the
`softspace` flag driven by the Python `print` machinery. -/
structure FileState where
  buffer : List String
  softspace : Nat
deriving DecidableEq, Repr

/-- `Slide.write` (faketerm.py lines 95-97): append the emitted line to the
buffer unless the softspace flag is set and the line is exactly `"\n"`. -/
def Slide.write (s : FileState) (line : String) : FileState :=
  if s.softspace ≠ 0 ∧ line = "\n" then s
  else { s with buffer := s.buffer ++ [line] }

/-- Replay a sequence of emissions against `Slide.write`; each emission
carries the softspace value the print machinery has set at that moment. -/
def runEmissions (buf : List String) : List (Nat × String) → List String
  | [] => buf
  | e :: rest => runEmissions (Slide.write ⟨buf, e.1⟩ e.2).buffer rest

/-- Specification-side view of capture: the emissions that survive
soft-space suppression, in emission order. -/
def keptEmissions (es : List (Nat × String)) : List String :=
  (es.filter (fun e => ¬(e.1 ≠ 0 ∧ e.2 = "\n"))).map Prod.snd

/-! ## `chapter` -/

/-- `chapter.prepare`: vertically center the buffered lines; each line is
horizontally centered to width `maxx - 1`. The Python offset
`(y - len(buffer)) // 2` can be negative when the buffer overflows the
screen; curses would reject such a draw (a RenderingFault of the external
surface), which the trace model clamps. -/
def chapter.prepare (buffer : List String) (w : Win) : Win :=
  let offset : Int := (Int.ofNat w.maxy - Int.ofNat buffer.length) / 2
  (List.range buffer.length).foldl
    (fun w' i =>
      (w'.move (offset + Int.ofNat i).toNat 0).addstr
        (strCenter (buffer.getD i "") (w.maxx - 1)))
    w

/-- `chapter.process`: Enter raises `StopIteration`; anything else is a
no-op. -/
def chapter.process (c : Nat) : Except PyExc Unit :=
  if c = 10 then .error .stopIteration else .ok ()

/-! ## `bullets` -/

structure BulletsState where
  title : String
  bullet : String
  underline : String
  last : Option String
  buffer : List String
deriving DecidableEq, Repr

/-- `bullets.prepare`: title, an underline rule of the title's length, and a
blank separator line. -/
def bullets.prepare (s : BulletsState) (w : Win) : Win :=
  ((w.addstr (s.title ++ "\n")).addstr
    (strRepeat s.underline s.title.length ++ "\n\n"))

/-- `bullets.process` (faketerm.py lines 153-164). On Enter or Space:
delete the current line, re-draw the previously revealed item as a plain
bullet line, pop the next item (IndexError on an empty buffer), draw it
bold, move to the start of that line, and if the buffer just became empty
park the cursor at the bottom-right corner. -/
def bullets.process (s : BulletsState) (w : Win) (c : Nat) :
    Except PyExc (BulletsState × Win) :=
  if c = 10 ∨ c = 32 then
    let w1 := w.deleteln
    let w2 := match s.last with
      | some l => w1.addstr (s.bullet ++ " " ++ l ++ "\n")
      | none => w1
    match s.buffer with
    | [] => .error .indexError
    | item :: rest =>
      let w3 := w2.addstrA (s.bullet ++ " " ++ item) A_BOLD
      let w4 := w3.move (w3.getyx).1 0
      let w5 := if rest.isEmpty then w4.move (w4.getmaxyx.1 - 1) (w4.getmaxyx.2 - 1)
                else w4
      .ok ({ s with last := some item, buffer := rest }, w5)
  else .ok (s, w)

/-! ## `shell` (and its `pyshell` specialization) -/

/-- State of a Shell-family slide. `pos`, `cmd` and `len` are instance
attributes that `next_action` may never assign; `none` models the unset
attribute, whose read raises `AttributeError`. `ps1`, `ps2` and `banner`
carry the per-subclass configuration (`shell` vs `pyshell`). -/
structure ShellState where
  ps1 : String
  ps2 : String
  banner : String
  terminated : Bool
  buffer : List String
  pos : Option Nat
  cmd : Option String
  len : Option Nat
deriving DecidableEq, Repr

/-- `shell.__init__`: `terminated = False`, empty capture buffer, and the
typing attributes not yet assigned. The buffer is then filled by authoring;
`mkShell` takes the authored buffer directly. -/
def mkShell (ps1 ps2 banner : String) (buffer : List String) : ShellState :=
  { ps1 := ps1, ps2 := ps2, banner := banner, terminated := false,
    buffer := buffer, pos := none, cmd := none, len := none }

/-- `shell.next_action` (faketerm.py lines 191-198): write the primary
prompt; if the buffer still has a command, pop it and reset the typing
state; otherwise mark the slide terminated. -/
def shell.next_action (s : ShellState) (w : Win) : ShellState × Win :=
  let w1 := w.addstr s.ps1
  match s.buffer with
  | [] => ({ s with terminated := true }, w1)
  | c :: rest =>
    ({ s with pos := some 0, cmd := some c, len := some c.length,
              buffer := rest }, w1)

/-- `shell.prepare`: write the banner (plus a newline if nonempty), then
start the first command. -/
def shell.prepare (s : ShellState) (w : Win) : ShellState × Win :=
  let w1 := w.addstr s.banner
  let w2 := if s.banner ≠ "" then w1.addch 10 else w1
  shell.next_action s w2

/-- Shared tail of `shell.process` (the `if self.pos < self.len:` block):
reveal one character of the current command. An embedded newline is only
revealed on Enter, together with the secondary prompt. -/
def shell.processTail (s : ShellState) (w : Win) (c : Nat) :
    Except PyExc (ShellState × Win) :=
  match s.pos with
  | none => .error .attributeError
  | some p =>
    match s.len with
    | none => .error .attributeError
    | some l =>
      if p < l then
        match s.cmd with
        | none => .error .attributeError
        | some cmd =>
          match cmd.data[p]? with
          | none => .error .indexError
          | some ch =>
            if ch = '\n' then
              if c = 10 then
                .ok ({ s with pos := some (p + 1) },
                     w.addstr (String.singleton ch ++ s.ps2))
              else .ok (s, w)
            else .ok ({ s with pos := some (p + 1) },
                      w.addstr (String.singleton ch))
      else .ok (s, w)

/-- `shell.process` (faketerm.py lines 200-219). On Enter: `StopIteration`
when terminated; when the command is fully typed, pop and print its paired
output (IndexError when the buffer lacks one) and start the next command.
Otherwise fall through to the single-character reveal tail. -/
def shell.process (s : ShellState) (w : Win) (c : Nat) :
    Except PyExc (ShellState × Win) :=
  if c = 10 then
    if s.terminated then .error .stopIteration
    else
      match s.pos with
      | none => .error .attributeError
      | some p =>
        match s.len with
        | none => .error .attributeError
        | some l =>
          if p ≥ l then
            let w1 := w.addstr "\n"
            match s.buffer with
            | [] => .error .indexError
            | out :: rest =>
              let w2 := if out ≠ "" then w1.addstr (out ++ "\n") else w1
              .ok (shell.next_action { s with buffer := rest } w2)
          else shell.processTail s w c
  else shell.processTail s w c

/-! ## The Player: tagged slides, the event mainloop, and `play` -/

/-- A slide on the timeline, tagged by variant (the polymorphic dispatch of
`prepare`/`process`). -/
inductive SlideT where
  | chapterS (buffer : List String)
  | bulletsS (s : BulletsState)
  | shellS (s : ShellState)
deriving DecidableEq, Repr

/-- Dispatch of `prepare` over the slide variants. -/
def prepareT : SlideT → Win → SlideT × Win
  | .chapterS b, w => (.chapterS b, chapter.prepare b w)
  | .bulletsS s, w => (.bulletsS s, bullets.prepare s w)
  | .shellS s, w =>
    let r := shell.prepare s w
    (.shellS r.1, r.2)

/-- Dispatch of `process` over the slide variants. -/
def processT : SlideT → Win → Nat → Except PyExc (SlideT × Win)
  | .chapterS b, w, c =>
    match chapter.process c with
    | .error e => .error e
    | .ok _ => .ok (.chapterS b, w)
  | .bulletsS s, w, c =>
    match bullets.process s w c with
    | .error e => .error e
    | .ok r => .ok (.bulletsS r.1, r.2)
  | .shellS s, w, c =>
    match shell.process s w c with
    | .error e => .error e
    | .ok r => .ok (.shellS r.1, r.2)

/-- The inner mainloop of `play` (faketerm.py lines 360-365):
`while 1: c = win.getch(); try: context.process(win, c) except Exception:
break`. Every exception a slide raises is a subclass of `Exception`, so any
`.error` breaks the loop and hands control back to the timeline iteration.
`none` means the event stream ran dry while the loop was still blocking on
`getch`. -/
def slideLoop : SlideT → Win → List Nat → Option (SlideT × Win × List Nat)
  | _, _, [] => none
  | t, w, c :: cs =>
    match processT t w c with
    | .error _ => some (t, w, cs)
    | .ok r => slideLoop r.1 r.2 cs

/-- Whether the glyph-wipe transition draws cell `(j, i)`: every cell except
the final one. -/
def wipeCell (y x j i : Nat) : Bool := !(i = x - 1 && j = y - 1)

/-- The raster wipe effect: for every column, for every row (skipping only
the final cell), draw the transition glyph. -/
def wipeOps (w : Win) (g : String) : Win :=
  (List.range w.maxx).foldl
    (fun wi i =>
      (List.range w.maxy).foldl
        (fun wj j => if wipeCell w.maxy w.maxx j i then (wj.move j i).addstr g else wj)
        wi)
    w

/-- A transition setting: `none` (no effect), a flash count, or a wipe
glyph. -/
def applyTransition (w : Win) : Option (Nat ⊕ String) → Win
  | none => w
  | some (.inl n) => { w with trace := w.trace ++ List.replicate n WinOp.flash }
  | some (.inr g) => wipeOps w g

/-- A timeline entry: the slide plus its `transition` and `cursor`
attributes read by the player. -/
structure Entry where
  transition : Option (Nat ⊕ String)
  cursor : Bool
  slide : SlideT
deriving DecidableEq, Repr

/-- The window as a slide first sees it: after the transition effect, the
cursor-visibility call and the screen clear (faketerm.py lines 338-356). -/
def preSlideWin (e : Entry) (w : Win) : Win :=
  let w1 := applyTransition w e.transition
  Win.clear { w1 with trace := w1.trace ++ [WinOp.cursSet e.cursor] }

/-- Run one timeline entry: transition effect, cursor visibility, clear,
`prepare`, then the event mainloop until the slide raises. -/
def runSlide (e : Entry) (w : Win) (es : List Nat) : Option (Win × List Nat) :=
  let r := prepareT e.slide (preSlideWin e w)
  match slideLoop r.1 r.2 es with
  | none => none
  | some q => some (q.2.1, q.2.2)

/-- The timeline iteration of `play` (faketerm.py lines 337-365): each
slide in order; a slide's raised exception only ends that slide, never the
playback. `none` again means the event stream was exhausted mid-slide. -/
def play : List Entry → Win → List Nat → Option (Win × List Nat)
  | [], w, es => some (w, es)
  | e :: rest, w, es =>
    match runSlide e w es with
    | none => none
    | some q => play rest q.1 q.2

/-! ## `main`: authoring and timeline assembly -/

/-- `TIMELINE.insert(0, TIMELINE.pop())`: move the last slide to the front.
(`pop` on an empty timeline would raise, but the synthesized title chapter
has just been appended, so the list is never empty there.) -/
def moveLastToFront (l : List Entry) : List Entry :=
  match l.getLast? with
  | none => l
  | some x => x :: l.dropLast

/-- Buffer captured for the synthesized title chapter: each docstring line
is printed (its trailing print newline suppressed by the softspace flag the
print machinery sets after a written item), then — when `__author__` is
present — two bare prints (each a kept `"\n"` emission) and the author
line. -/
def titleBuffer (docLines : List String) (author : Option String) : List String :=
  docLines ++ (match author with
    | none => []
    | some a => ["\n", "\n", "by " ++ a])

/-- The synthesized title chapter entry: `title.transition = None`, default
hidden cursor. -/
def titleEntry (docLines : List String) (author : Option String) : Entry :=
  { transition := none, cursor := false,
    slide := .chapterS (titleBuffer docLines author) }

/-- Timeline assembly in `main` (faketerm.py lines 310-328): the authored
slides are appended in declaration order by `Slide.__init__`; when the
script has a module docstring, a title chapter is constructed (appending
itself to the timeline) and then moved to the front. -/
def mainTimeline (declared : List Entry) (doc : Option (List String))
    (author : Option String) : List Entry :=
  match doc with
  | none => declared
  | some d => moveLastToFront (declared ++ [titleEntry d author])

/-! ## Instrumentation for the temporal claims (specification side) -/

/-- Number of confirm/advance events (Enter or Space) in an event list. -/
def confirmCount (es : List Nat) : Nat :=
  (es.filter (fun c => c = 10 ∨ c = 32)).length

/-- The strings drawn in bold (the freshly revealed bullet items), in trace
order. -/
def boldStrs (t : List WinOp) : List String :=
  t.filterMap (fun op => match op with
    | WinOp.addstrA s a => if a = A_BOLD then some s else none
    | _ => none)

/-- Iterate `bullets.process` over an event list, stopping on a raised
exception. -/
def bulletsSteps : BulletsState → Win → List Nat → Option (BulletsState × Win)
  | s, w, [] => some (s, w)
  | s, w, c :: cs =>
    match bullets.process s w c with
    | .error _ => none
    | .ok r => bulletsSteps r.1 r.2 cs

/-- Iterate `shell.process` over an event list, stopping on a raised
exception. -/
def shellSteps : ShellState → Win → List Nat → Option (ShellState × Win)
  | s, w, [] => some (s, w)
  | s, w, c :: cs =>
    match shell.process s w c with
    | .error _ => none
    | .ok r => shellSteps r.1 r.2 cs

/-- The event `c` takes `shell.process` into its output branch: Enter on a
non-terminated shell whose current command is fully typed. This is exactly
the branch that pops and writes the paired output. -/
def isOutputStep (s : ShellState) (c : Nat) : Bool :=
  c = 10 && !s.terminated &&
    (match s.pos, s.len with
     | some p, some l => decide (p ≥ l)
     | _, _ => false)

/-- The event `c` makes `shell.process` reveal exactly one character of the
current command (the `pos += 1` paths of the reveal tail). -/
def isRevealStep (s : ShellState) (c : Nat) : Bool :=
  !(c = 10 && s.terminated) &&
    (match s.pos, s.len, s.cmd with
     | some p, some l, some cmd =>
       decide (p < l) &&
         (match cmd.data[p]? with
          | some ch => decide (ch ≠ '\n') || c = 10
          | none => false)
     | _, _, _ => false)

/-- Number of single-character reveal steps an event list performs, stopping
at a raised exception. -/
def revealCount : ShellState → Win → List Nat → Nat
  | _, _, [] => 0
  | s, w, c :: cs =>
    match shell.process s w c with
    | .error _ => 0
    | .ok r => (if isRevealStep s c then 1 else 0) + revealCount r.1 r.2 cs

/-- No event of the list reaches the output branch (within the ok prefix of
the run). -/
def noOutputStep : ShellState → Win → List Nat → Bool
  | _, _, [] => true
  | s, w, c :: cs =>
    !isOutputStep s c &&
      (match shell.process s w c with
       | .error _ => true
       | .ok r => noOutputStep r.1 r.2 cs)

/-! ## Helper lemmas -/

theorem maxy_addstr (w : Win) (s : String) : (w.addstr s).maxy = w.maxy := rfl

theorem maxx_addstr (w : Win) (s : String) : (w.addstr s).maxx = w.maxx := rfl

theorem boldStrs_append (t u : List WinOp) :
    boldStrs (t ++ u) = boldStrs t ++ boldStrs u := by
  simp [boldStrs, List.filterMap_append]

/-- Concrete 24×80 window with an empty trace, used by the witnesses. -/
def winA : Win := { maxy := 24, maxx := 80, cury := 0, curx := 0, trace := [] }

/-- Concrete shell of spec Scenario B: one command with its paired output. -/
def shB : ShellState := mkShell ("$ ") ("> ") ("") ["echo hi", "hi"]

/-- Concrete bullets slide of spec Scenario A. -/
def blA : BulletsState :=
  { title := "Topics", bullet := "*", underline := "=", last := none,
    buffer := ["alpha", "beta", "gamma"] }

/-- Concrete fully revealed bullets slide (all three items consumed). -/
def blDone : BulletsState :=
  { title := "Topics", bullet := "*", underline := "=", last := some "gamma",
    buffer := [] }

/-! ## The claims -/

/-- C8: while an authoring block is active, every emitted line is appended
verbatim to the slide's buffer in emission order, except that an emission
consisting solely of a newline character is dropped when the softspace
flag is set at that moment. -/
theorem write_captures_emissions (buf : List String) (es : List (Nat × String)) :
    runEmissions buf es = buf ++ keptEmissions es := by
  induction es generalizing buf with
  | nil => simp [runEmissions, keptEmissions]
  | cons e rest ih =>
    by_cases h : e.1 ≠ 0 ∧ e.2 = "\n"
    · simp [runEmissions, Slide.write, keptEmissions, h, ih, List.filter_cons]
    · simp only [runEmissions, Slide.write, if_neg h, ih, keptEmissions,
        List.filter_cons, decide_not]
      simp [h]

/-- C6: after authoring, the timeline lists the declared slides in
declaration order, and when a title chapter is synthesized from the module
docstring it ends up at index 0, however many slides were declared. -/
theorem synthesized_title_at_front (declared : List Entry) (d : List String)
    (a : Option String) :
    mainTimeline declared (some d) a = titleEntry d a :: declared ∧
    mainTimeline declared none a = declared := by
  refine ⟨?_, rfl⟩
  simp [mainTimeline, moveLastToFront, List.getLast?_concat, List.dropLast_concat]

/-- C5: a Shell-family slide whose buffer is empty when `prepare` runs is
marked terminated by `next_action`, and the first subsequent Enter makes
`process` raise the deliberate done signal, which ends the slide in the
player's loop. -/
theorem empty_shell_terminated_on_prepare (s : ShellState) (w w2 : Win)
    (cs : List Nat) (h : s.buffer = []) :
    (shell.prepare s w).1.terminated = true ∧
    shell.process (shell.prepare s w).1 w2 10 = .error .stopIteration ∧
    slideLoop (.shellS (shell.prepare s w).1) w2 (10 :: cs) =
      some (.shellS (shell.prepare s w).1, w2, cs) := by
  have hp : (shell.prepare s w).1 = { s with terminated := true } := by
    simp [shell.prepare, shell.next_action, h]
  refine ⟨by simp [hp], by simp [hp, shell.process], ?_⟩
  simp [slideLoop, processT, hp, shell.process]

theorem empty_shell_terminated_on_prepare_witness :
    (mkShell ("$ ") ("> ") ("") []).buffer = [] ∧
    (shell.prepare (mkShell ("$ ") ("> ") ("") []) winA).1.terminated = true ∧
    shell.process (shell.prepare (mkShell ("$ ") ("> ") ("") []) winA).1 winA 10 =
      .error .stopIteration :=
  ⟨rfl,
   (empty_shell_terminated_on_prepare (mkShell ("$ ") ("> ") ("") []) winA winA [] rfl).1,
   (empty_shell_terminated_on_prepare (mkShell ("$ ") ("> ") ("") []) winA winA [] rfl).2.1⟩

/-- C9: with a partially typed command whose next unrevealed character is
not a newline, Enter behaves exactly like a non-confirm key: `process`
reveals that one character and advances the position by one. -/
theorem enter_midcommand_reveals_one_char (s : ShellState) (w : Win)
    (p l : Nat) (cmd : String) (ch : Char)
    (hterm : s.terminated = false) (hp : s.pos = some p) (hl : s.len = some l)
    (hc : s.cmd = some cmd) (hpl : p < l) (hch : cmd.data[p]? = some ch)
    (hnl : ch ≠ '\n') :
    shell.process s w 10 =
      .ok ({ s with pos := some (p + 1) }, w.addstr (String.singleton ch)) ∧
    ∀ c, c ≠ 10 → shell.process s w c = shell.process s w 10 := by
  have htail : shell.processTail s w 10 =
      .ok ({ s with pos := some (p + 1) }, w.addstr (String.singleton ch)) := by
    simp [shell.processTail, hp, hl, hc, hch, hpl, hnl]
  constructor
  · simp [shell.process, hterm, hp, hl, Nat.not_le.mpr hpl, htail]
  · intro c hcne
    have htail2 : shell.processTail s w c = shell.processTail s w 10 := by
      simp [shell.processTail, hp, hl, hc, hch, hpl, hnl]
    simp [shell.process, hcne, hterm, hp, hl, Nat.not_le.mpr hpl, htail2]

theorem enter_midcommand_reveals_one_char_witness :
    shell.process
      { ps1 := "$ ", ps2 := "> ", banner := "", terminated := false,
        buffer := ["hi"], pos := some 0, cmd := some "echo hi", len := some 7 }
      winA 10 =
      .ok ({ ps1 := "$ ", ps2 := "> ", banner := "", terminated := false,
             buffer := ["hi"], pos := some 1, cmd := some "echo hi",
             len := some 7 },
           winA.addstr (String.singleton 'e')) :=
  (enter_midcommand_reveals_one_char
    { ps1 := "$ ", ps2 := "> ", banner := "", terminated := false,
      buffer := ["hi"], pos := some 0, cmd := some "echo hi", len := some 7 }
    winA 0 7 "echo hi" 'e' rfl rfl rfl rfl (by decide) rfl (by decide)).1

/-- C10: a Shell-family slide prepared with an empty buffer never gets its
`pos`/`cmd`/`len` attributes assigned, so the first non-confirm event makes
`process` raise `AttributeError` — a fault distinct from the deliberate
done signal — which the player's loop treats as the end of the slide. -/
theorem empty_shell_nonconfirm_attribute_fault (ps1 ps2 banner : String)
    (w w2 : Win) (c : Nat) (cs : List Nat) (hc : c ≠ 10) :
    (shell.prepare (mkShell ps1 ps2 banner []) w).1.pos = none ∧
    (shell.prepare (mkShell ps1 ps2 banner []) w).1.cmd = none ∧
    (shell.prepare (mkShell ps1 ps2 banner []) w).1.len = none ∧
    (shell.prepare (mkShell ps1 ps2 banner []) w).1.terminated = true ∧
    shell.process (shell.prepare (mkShell ps1 ps2 banner []) w).1 w2 c =
      .error .attributeError ∧
    PyExc.attributeError ≠ PyExc.stopIteration ∧
    slideLoop (.shellS (shell.prepare (mkShell ps1 ps2 banner []) w).1) w2 (c :: cs) =
      some (.shellS (shell.prepare (mkShell ps1 ps2 banner []) w).1, w2, cs) := by
  have hp : (shell.prepare (mkShell ps1 ps2 banner []) w).1 =
      { ps1 := ps1, ps2 := ps2, banner := banner, terminated := true,
        buffer := [], pos := none, cmd := none, len := none } := by
    simp [shell.prepare, shell.next_action, mkShell]
  have hproc : shell.process (shell.prepare (mkShell ps1 ps2 banner []) w).1 w2 c =
      .error .attributeError := by
    rw [hp]
    simp [shell.process, shell.processTail, hc]
  refine ⟨by rw [hp], by rw [hp], by rw [hp], by rw [hp], hproc, by decide, ?_⟩
  simp [slideLoop, processT, hproc]

theorem empty_shell_nonconfirm_attribute_fault_witness :
    (120 : Nat) ≠ 10 ∧
    shell.process (shell.prepare (mkShell ("$ ") ("> ") ("") []) winA).1 winA 120 =
      .error .attributeError :=
  ⟨by decide,
   (empty_shell_nonconfirm_attribute_fault ("$ ") ("> ") ("") winA winA 120 []
     (by decide)).2.2.2.2.1⟩

/-- C3 counterexample: with every item already revealed (empty buffer), a
further confirm key makes `bullets.process` raise `IndexError` from the
empty-buffer pop, so the player's event loop ends the slide — the Player
does advance past the slide on that key. -/
theorem bullets_extra_confirm_ends_slide_cex :
    bullets.process blDone winA 10 = .error .indexError ∧
    slideLoop (.bulletsS blDone) winA [10] = some (.bulletsS blDone, winA, []) := by
  constructor <;> rfl

/-- C3 amended: a Bullets slide never raises the deliberate done signal
(`StopIteration`) from its input handler; but once the buffer is empty a
further confirm key raises `IndexError` from the front pop, which the
player's loop treats like completion, ending the slide. Non-confirm keys
leave the slide active. -/
theorem bullets_no_deliberate_done (s : BulletsState) (w : Win) (c : Nat)
    (cs : List Nat) (hbuf : s.buffer = []) (hconf : c = 10 ∨ c = 32) :
    (∀ s' w' c', bullets.process s' w' c' ≠ .error .stopIteration) ∧
    bullets.process s w c = .error .indexError ∧
    slideLoop (.bulletsS s) w (c :: cs) = some (.bulletsS s, w, cs) ∧
    (∀ c', ¬(c' = 10 ∨ c' = 32) → bullets.process s w c' = .ok (s, w)) := by
  have herr : bullets.process s w c = .error .indexError := by
    simp [bullets.process, hconf, hbuf]
  refine ⟨?_, herr, by simp [slideLoop, processT, herr], ?_⟩
  · intro s' w' c'
    unfold bullets.process
    split
    · cases hl : s'.last <;> cases hb : s'.buffer <;> simp [hl, hb]
    · simp
  · intro c' hc'
    simp [bullets.process, hc']

theorem bullets_no_deliberate_done_witness :
    blDone.buffer = [] ∧ ((10 : Nat) = 10 ∨ (10 : Nat) = 32) ∧
    bullets.process blDone winA 10 = .error .indexError :=
  ⟨rfl, Or.inl rfl,
   (bullets_no_deliberate_done blDone winA 10 [] rfl (Or.inl rfl)).2.1⟩

/-- C4: every condition a slide's `process` raises — the deliberate done
signal and any other fault alike — makes the player end the current slide
and go on with the rest of the timeline; playback is never aborted. -/
theorem slide_fault_advances_timeline (t : SlideT) (w : Win) (c : Nat)
    (cs : List Nat) (e : PyExc) (h : processT t w c = .error e) :
    slideLoop t w (c :: cs) = some (t, w, cs) ∧
    ∀ (ent : Entry) (ts : List Entry) (w0 : Win),
      prepareT ent.slide (preSlideWin ent w0) = (t, w) →
      play (ent :: ts) w0 (c :: cs) = play ts w cs := by
  have hloop : slideLoop t w (c :: cs) = some (t, w, cs) := by
    simp [slideLoop, h]
  refine ⟨hloop, ?_⟩
  intro ent ts w0 hprep
  simp [play, runSlide, hprep, hloop]

theorem slide_fault_advances_timeline_witness :
    processT (.bulletsS blDone)
      (bullets.prepare blDone (preSlideWin
        { transition := none, cursor := false, slide := .bulletsS blDone } winA)) 10 =
      .error .indexError ∧
    play [{ transition := none, cursor := false, slide := .bulletsS blDone }]
      winA [10] =
      play []
        (bullets.prepare blDone (preSlideWin
          { transition := none, cursor := false, slide := .bulletsS blDone } winA))
        [] :=
  ⟨rfl,
   (slide_fault_advances_timeline (.bulletsS blDone)
      (bullets.prepare blDone (preSlideWin
        { transition := none, cursor := false, slide := .bulletsS blDone } winA))
      10 [] .indexError rfl).2
     { transition := none, cursor := false, slide := .bulletsS blDone } [] winA rfl⟩

/-- The reveal tail of `shell.process` never touches the buffer. -/
theorem processTail_ok_buffer (s : ShellState) (w : Win) (c : Nat)
    (r : ShellState × Win) (h : shell.processTail s w c = .ok r) :
    r.1.buffer = s.buffer := by
  unfold shell.processTail at h
  repeat' split at h
  all_goals (try cases h)
  all_goals simp

/-- `next_action` pops at most the front command off the buffer. -/
theorem next_action_buffer (s : ShellState) (w : Win) :
    ∃ k, (shell.next_action s w).1.buffer = s.buffer.drop k := by
  unfold shell.next_action
  cases hb : s.buffer with
  | nil => exact ⟨0, by simp [hb]⟩
  | cons a l => exact ⟨1, by simp [hb]⟩

/-- C7: during playback every slide operation — `prepare`, `process`,
`next_action` — leaves the buffer a suffix of what it was (elements are
only ever removed from the front, never appended or re-read). -/
theorem playback_buffer_monotone :
    (∀ s w c r, bullets.process s w c = .ok r → ∃ k, r.1.buffer = s.buffer.drop k) ∧
    (∀ s w c r, shell.process s w c = .ok r → ∃ k, r.1.buffer = s.buffer.drop k) ∧
    (∀ s w, ∃ k, (shell.next_action s w).1.buffer = s.buffer.drop k) ∧
    (∀ s w, ∃ k, (shell.prepare s w).1.buffer = s.buffer.drop k) := by
  refine ⟨?_, ?_, next_action_buffer, ?_⟩
  · intro s w c r h
    unfold bullets.process at h
    split at h
    · split at h
      · split at h
        · cases h
        · cases h
          exact ⟨1, by simp_all⟩
      · split at h
        · cases h
        · cases h
          exact ⟨1, by simp_all⟩
    · cases h
      exact ⟨0, by simp⟩
  · intro s w c r h
    unfold shell.process at h
    split at h
    · split at h
      · cases h
      · split at h
        · cases h
        · split at h
          · cases h
          · split at h
            · split at h
              · cases h
              · rename_i hb
                cases h
                rename_i out rest
                cases rest with
                | nil => exact ⟨1, by simp [shell.next_action, hb]⟩
                | cons b l => exact ⟨2, by simp [shell.next_action, hb]⟩
            · exact ⟨0, by rw [processTail_ok_buffer s w c r h]; simp⟩
    · exact ⟨0, by rw [processTail_ok_buffer s w c r h]; simp⟩
  · intro s w
    unfold shell.prepare
    exact next_action_buffer s _

theorem playback_buffer_monotone_witness :
    ∃ r, bullets.process blA winA 10 = .ok r ∧ ∃ k, r.1.buffer = blA.buffer.drop k :=
  ⟨_, rfl, playback_buffer_monotone.1 blA winA 10 _ rfl⟩

/-- One confirm step of a Bullets slide with a nonempty buffer: the front
item moves into `last` and is drawn bold; exactly one bold draw is added to
the trace. -/
theorem bullets_confirm_step (s : BulletsState) (w : Win) (c : Nat)
    (item : String) (rest : List String) (hc : c = 10 ∨ c = 32)
    (hb : s.buffer = item :: rest) :
    ∃ w5, bullets.process s w c =
        .ok ({ s with last := some item, buffer := rest }, w5) ∧
      boldStrs w5.trace = boldStrs w.trace ++ [s.bullet ++ " " ++ item] := by
  unfold bullets.process
  rw [if_pos hc, hb]
  cases hl : s.last with
  | none =>
    refine ⟨_, rfl, ?_⟩
    by_cases hr : rest.isEmpty <;>
      simp [hr, Win.deleteln, Win.addstrA, Win.move, Win.getyx, Win.getmaxyx,
        boldStrs, List.filterMap_append, A_BOLD]
  | some l =>
    refine ⟨_, rfl, ?_⟩
    by_cases hr : rest.isEmpty <;>
      simp [hr, Win.deleteln, Win.addstr, Win.addstrA, Win.move, Win.getyx,
        Win.getmaxyx, boldStrs, List.filterMap_append, A_BOLD]

/-- Running a Bullets slide over any event list with at most `|buffer|`
confirm events never faults, pops exactly one front item per confirm, and
draws the popped items bold in FIFO order. -/
theorem bullets_run_core (es : List Nat) :
    ∀ (s : BulletsState) (w : Win), confirmCount es ≤ s.buffer.length →
    ∃ s' w', bulletsSteps s w es = some (s', w') ∧
      s'.buffer = s.buffer.drop (confirmCount es) ∧
      s'.bullet = s.bullet ∧
      boldStrs w'.trace = boldStrs w.trace ++
        (s.buffer.take (confirmCount es)).map (fun it => s.bullet ++ " " ++ it) := by
  induction es with
  | nil =>
    intro s w _
    exact ⟨s, w, rfl, by simp [confirmCount], rfl, by simp [confirmCount]⟩
  | cons c cs ih =>
    intro s w h
    by_cases hc : c = 10 ∨ c = 32
    · have hcc : confirmCount (c :: cs) = confirmCount cs + 1 := by
        simp [confirmCount, List.filter_cons, hc]
      rw [hcc] at h
      cases hb : s.buffer with
      | nil => rw [hb] at h; simp at h
      | cons item rest =>
        obtain ⟨w5, hproc, hbold⟩ := bullets_confirm_step s w c item rest hc hb
        have h' : confirmCount cs ≤ rest.length := by
          rw [hb] at h; simpa using h
        obtain ⟨s', w', hsteps, hbuf, hbul, htr⟩ :=
          ih { s with last := some item, buffer := rest } w5 h'
        refine ⟨s', w', by simp [bulletsSteps, hproc, hsteps], ?_, ?_, ?_⟩
        · rw [hbuf]
          simp [hcc]
        · exact hbul
        · rw [htr, hbold]
          simp [hcc, List.take_succ_cons, List.append_assoc]
    · have hcc : confirmCount (c :: cs) = confirmCount cs := by
        simp [confirmCount, List.filter_cons, hc]
      have hproc : bullets.process s w c = .ok (s, w) := by
        simp [bullets.process, hc]
      rw [hcc] at h
      obtain ⟨s', w', hsteps, hbuf, hbul, htr⟩ := ih s w h
      exact ⟨s', w', by simp [bulletsSteps, hproc, hsteps], by rw [hcc]; exact hbuf,
        hbul, by rw [hcc]; exact htr⟩

/-- C2: with N buffered items, exactly N confirm/advance events (Enter or
Space) empty the buffer; the items are drawn bold in FIFO order; and on
the confirm event that empties the buffer the cursor is moved to the
bottom-right corner of the surface. -/
theorem bullets_n_confirms_reveal_all (s : BulletsState) (w : Win)
    (es : List Nat) (h : confirmCount es ≤ s.buffer.length) :
    (∃ s' w', bulletsSteps s w es = some (s', w') ∧
       s'.buffer = s.buffer.drop (confirmCount es) ∧
       (s'.buffer = [] ↔ confirmCount es = s.buffer.length) ∧
       boldStrs w'.trace = boldStrs w.trace ++
         (s.buffer.take (confirmCount es)).map (fun it => s.bullet ++ " " ++ it)) ∧
    (∀ s2 w2 c r, bullets.process s2 w2 c = .ok r → r.1.buffer = [] →
       s2.buffer ≠ [] → r.2.cury = w2.maxy - 1 ∧ r.2.curx = w2.maxx - 1) := by
  constructor
  · obtain ⟨s', w', h1, h2, _, h4⟩ := bullets_run_core es s w h
    refine ⟨s', w', h1, h2, ?_, h4⟩
    rw [h2, List.drop_eq_nil_iff]
    omega
  · intro s2 w2 c r hp hempty hne
    unfold bullets.process at hp
    split at hp
    · split at hp
      · split at hp
        · cases hp
        · cases hp
          simp only at hempty
          subst hempty
          simp [Win.deleteln, Win.addstr, Win.addstrA, Win.move, Win.getyx,
            Win.getmaxyx]
      · split at hp
        · cases hp
        · cases hp
          simp only at hempty
          subst hempty
          simp [Win.deleteln, Win.addstr, Win.addstrA, Win.move, Win.getyx,
            Win.getmaxyx]
    · cases hp
      exact absurd hempty hne

theorem bullets_n_confirms_reveal_all_witness :
    confirmCount [10, 32, 10] ≤ blA.buffer.length ∧
    (∃ s' w', bulletsSteps blA (bullets.prepare blA winA) [10, 32, 10] = some (s', w') ∧
       s'.buffer = blA.buffer.drop (confirmCount [10, 32, 10]) ∧
       (s'.buffer = [] ↔ confirmCount [10, 32, 10] = blA.buffer.length) ∧
       boldStrs w'.trace = boldStrs (bullets.prepare blA winA).trace ++
         (blA.buffer.take (confirmCount [10, 32, 10])).map
           (fun it => blA.bullet ++ " " ++ it)) :=
  ⟨by decide,
   (bullets_n_confirms_reveal_all blA (bullets.prepare blA winA) [10, 32, 10]
     (by decide)).1⟩

/-- Classification of a non-output `shell.process` step on a loaded
command: it is either a single-character reveal — the position advances by
exactly one and the command is unchanged — or a strict no-op on the shell
state. -/
theorem shell_step_classify (s : ShellState) (w : Win) (c : Nat)
    (r : ShellState × Win) (p : Nat) (cmd : String)
    (hp : s.pos = some p) (hc : s.cmd = some cmd) (hl : s.len = some cmd.length)
    (hout : isOutputStep s c = false) (h : shell.process s w c = .ok r) :
    (isRevealStep s c = true →
       r.1.pos = some (p + 1) ∧ r.1.cmd = some cmd ∧
       r.1.len = some cmd.length ∧ p < cmd.length) ∧
    (isRevealStep s c = false → r.1 = s) := by
  by_cases h10 : c = 10
  · subst h10
    unfold shell.process at h
    rw [if_pos rfl] at h
    split at h
    · cases h
    · rename_i hterm
      have hterm' : s.terminated = false := by simpa using hterm
      simp only [hp, hl] at h
      split at h
      · rename_i hge
        simp [isOutputStep, hp, hl, hterm', hge] at hout
      · rename_i hlt
        have hplt : p < cmd.length := Nat.lt_of_not_le hlt
        obtain ⟨ch, hch⟩ : ∃ ch, cmd.data[p]? = some ch :=
          ⟨_, List.getElem?_eq_getElem hplt⟩
        unfold shell.processTail at h
        simp only [hp, hl, hc, hch] at h
        rw [if_pos hplt] at h
        split at h
        · rw [if_pos trivial] at h
          cases h
          refine ⟨fun _ => by simp [hc, hl, hplt], ?_⟩
          intro hrev
          simp [isRevealStep, hp, hl, hc, hplt, hch, hterm'] at hrev
        · cases h
          refine ⟨fun _ => by simp [hc, hl, hplt], ?_⟩
          intro hrev
          simp [isRevealStep, hp, hl, hc, hplt, hch, hterm'] at hrev
  · have htail : shell.processTail s w c = .ok r := by
      unfold shell.process at h
      rw [if_neg h10] at h
      exact h
    unfold shell.processTail at htail
    simp only [hp, hl] at htail
    by_cases hplt : p < cmd.length
    · obtain ⟨ch, hch⟩ : ∃ ch, cmd.data[p]? = some ch :=
        ⟨_, List.getElem?_eq_getElem hplt⟩
      rw [if_pos hplt] at htail
      simp only [hc, hch] at htail
      split at htail
      · rename_i hnl
        cases htail
        refine ⟨?_, fun _ => rfl⟩
        intro hrev
        simp [isRevealStep, hp, hl, hc, hplt, hch, hnl, h10] at hrev
      · rename_i hnl
        cases htail
        refine ⟨fun _ => by simp [hc, hl, hplt], ?_⟩
        intro hrev
        simp [isRevealStep, hp, hl, hc, hplt, hch, hnl, h10] at hrev
    · rw [if_neg hplt] at htail
      cases htail
      refine ⟨?_, fun _ => rfl⟩
      intro hrev
      simp [isRevealStep, hp, hl, hc, hplt] at hrev

/-- As long as no output step occurs, the position of the loaded command
advances by exactly the number of single-character reveal steps and never
passes the command length. -/
theorem shell_run_core (es : List Nat) :
    ∀ (s : ShellState) (w : Win) (p : Nat) (cmd : String)
      (s1 : ShellState) (w1 : Win),
    s.pos = some p → s.cmd = some cmd → s.len = some cmd.length →
    p ≤ cmd.length → noOutputStep s w es = true →
    shellSteps s w es = some (s1, w1) →
    s1.pos = some (p + revealCount s w es) ∧ s1.cmd = some cmd ∧
    s1.len = some cmd.length ∧ p + revealCount s w es ≤ cmd.length := by
  induction es with
  | nil =>
    intro s w p cmd s1 w1 hp hc hl hle _ hrun
    simp [shellSteps] at hrun
    obtain ⟨h1, h2⟩ := hrun
    subst h1
    simp [revealCount, hp, hc, hl, hle]
  | cons c cs ih =>
    intro s w p cmd s1 w1 hp hc hl hle hno hrun
    cases hproc : shell.process s w c with
    | error e =>
      rw [shellSteps, hproc] at hrun
      cases hrun
    | ok r =>
      rw [shellSteps, hproc] at hrun
      have hno2 : isOutputStep s c = false ∧ noOutputStep r.1 r.2 cs = true := by
        rw [noOutputStep, hproc] at hno
        simpa [Bool.and_eq_true] using hno
      obtain ⟨hcls1, hcls2⟩ :=
        shell_step_classify s w c r p cmd hp hc hl hno2.1 hproc
      have hrc : revealCount s w (c :: cs) =
          (if isRevealStep s c then 1 else 0) + revealCount r.1 r.2 cs := by
        rw [revealCount, hproc]
      cases hrev : isRevealStep s c with
      | true =>
        obtain ⟨hp', hc', hl', hlt⟩ := hcls1 hrev
        obtain ⟨g1, g2, g3, g4⟩ :=
          ih r.1 r.2 (p + 1) cmd s1 w1 hp' hc' hl' hlt hno2.2 hrun
        rw [hrc, hrev]
        refine ⟨?_, g2, g3, by simpa [Nat.add_assoc, Nat.add_comm,
          Nat.add_left_comm] using g4⟩
        rw [g1]
        simp [Nat.add_assoc, Nat.add_comm, Nat.add_left_comm]
      | false =>
        have heq : r.1 = s := hcls2 hrev
        obtain ⟨g1, g2, g3, g4⟩ :=
          ih r.1 r.2 p cmd s1 w1 (heq ▸ hp) (heq ▸ hc) (heq ▸ hl) hle
            hno2.2 hrun
        rw [hrc, hrev]
        simpa using ⟨g1, g2, g3, g4⟩

/-- Off the output branch `shell.process` never touches the buffer: the
paired output is popped, and written, only when `pos ≥ len`. -/
theorem shell_nonoutput_buffer (s : ShellState) (w : Win) (c : Nat)
    (r : ShellState × Win) (hout : isOutputStep s c = false)
    (h : shell.process s w c = .ok r) : r.1.buffer = s.buffer := by
  by_cases h10 : c = 10
  · subst h10
    unfold shell.process at h
    rw [if_pos rfl] at h
    split at h
    · cases h
    · rename_i hterm
      have hterm' : s.terminated = false := by simpa using hterm
      split at h
      · cases h
      · rename_i p hp
        split at h
        · cases h
        · rename_i l hl
          split at h
          · rename_i hge
            simp [isOutputStep, hp, hl, hterm', hge] at hout
          · exact processTail_ok_buffer _ _ _ _ h
  · have htail : shell.processTail s w c = .ok r := by
      unfold shell.process at h
      rw [if_neg h10] at h
      exact h
    exact processTail_ok_buffer _ _ _ _ htail

/-- C1: playing a Shell-family slide, the number of single-character reveal
steps performed between loading a command and the step that writes its
paired output equals the command's length; the output pop happens only with
`pos ≥ len`, and at that moment `pos = len = |cmd|`; moreover `next_action`
always loads a fresh command at position 0 with `len = |cmd|`, and any
non-output step leaves the buffer untouched. -/
theorem shell_reveal_count_equals_command_length
    (s0 : ShellState) (w0 : Win) (es : List Nat) (s1 : ShellState) (w1 : Win)
    (c : Nat) (cmd : String)
    (hp : s0.pos = some 0) (hc : s0.cmd = some cmd)
    (hl : s0.len = some cmd.length)
    (hrun : shellSteps s0 w0 es = some (s1, w1))
    (hno : noOutputStep s0 w0 es = true)
    (hout : isOutputStep s1 c = true) :
    revealCount s0 w0 es = cmd.length ∧
    s1.pos = some cmd.length ∧ s1.len = some cmd.length ∧ s1.cmd = some cmd ∧
    (∀ s w cm rest, s.buffer = cm :: rest →
       (shell.next_action s w).1.pos = some 0 ∧
       (shell.next_action s w).1.cmd = some cm ∧
       (shell.next_action s w).1.len = some cm.length) ∧
    (∀ s w c2 r, isOutputStep s c2 = false → shell.process s w c2 = .ok r →
       r.1.buffer = s.buffer) := by
  obtain ⟨hp1, hc1, hl1, hle1⟩ :=
    shell_run_core es s0 w0 0 cmd s1 w1 hp hc hl (Nat.zero_le _) hno hrun
  have hge : cmd.length ≤ revealCount s0 w0 es := by
    rw [isOutputStep, hp1, hl1] at hout
    simp [Bool.and_eq_true] at hout
    omega
  have heq : revealCount s0 w0 es = cmd.length := le_antisymm (by omega) hge
  refine ⟨heq, by rw [hp1, heq]; simp, hl1, hc1, ?_,
    fun s w c2 r ho hh => shell_nonoutput_buffer s w c2 r ho hh⟩
  intro s w cm rest hb
  refine ⟨?_, ?_, ?_⟩ <;> simp [shell.next_action, hb]

theorem shell_reveal_count_equals_command_length_witness :
    noOutputStep (shell.prepare shB winA).1 (shell.prepare shB winA).2
      [101, 99, 104, 111, 32, 104, 105] = true ∧
    revealCount (shell.prepare shB winA).1 (shell.prepare shB winA).2
      [101, 99, 104, 111, 32, 104, 105] = ("echo hi").length :=
  ⟨rfl,
   (shell_reveal_count_equals_command_length
     (shell.prepare shB winA).1 (shell.prepare shB winA).2
     [101, 99, 104, 111, 32, 104, 105] _ _ 10 "echo hi"
     rfl rfl rfl rfl rfl rfl).1⟩

end Faketerm
